import Mathlib

/-!
Verification of the market-data streaming client of `aw-trade/front-app`
(`src/app.py`, `src/consume_stream.py`), shallowly embedded in Lean.

The embedding models:
* Python values carried in decoded JSON objects (`PyVal`);
* `MarketData.from_dict` (`cls(**data)`: succeeds exactly when the keyword
  set equals the dataclass field set; field values are not type-checked);
* the inbound decode path of `_receive_data` (`json.loads` then `from_dict`);
* the receive loop's per-iteration behaviour on timeouts, socket errors and
  datagrams (`CryptoStreamClient._receive_data`);
* the handoff queue (`queue.Queue` used single-producer/single-consumer:
  `put` appends, `get_latest_data` drains with `get_nowait` until `Empty`);
* the client facade state (`subscribed_symbols`, `is_running`, the socket)
  and its operations `subscribe`, `unsubscribe`, `start`, `stop`, `close`.

Transport effects are made explicit: each `socket.sendto` call either
succeeds or raises, which the embedding represents by a boolean outcome
supplied per call (`sendOk`). The receive side is driven by a finite list of
events (timeout / datagram / socket-level error).
-/

namespace FrontApp

/-- A Python value as delivered by `json.loads` for a JSON scalar. Nested
containers never occur in the payloads of interest and are omitted. -/
inductive PyVal where
  | pstr (s : String)
  | pint (n : Int)
  | pnum (q : Rat)
  | pbool (b : Bool)
  | pnull
deriving DecidableEq, Repr

/-- `MarketData` (src/app.py lines 23-40). Python dataclasses do not validate
field types at construction, so every field holds an arbitrary `PyVal`. -/
structure MarketData where
  symbol : PyVal
  price : PyVal
  volume : PyVal
  bid : PyVal
  ask : PyVal
  timestamp : PyVal
  exchange : PyVal
deriving DecidableEq, Repr

/-- The dataclass field names of `MarketData`, in declaration order. -/
def requiredFields : List String :=
  ["symbol", "price", "volume", "bid", "ask", "timestamp", "exchange"]

/-- `MarketData.from_dict` = `cls(**data)` (src/app.py lines 34-36).
`cls(**data)` raises `TypeError` when a keyword is missing or unexpected;
it performs no type checking of the values. The argument models a parsed
JSON object as an association list with distinct keys. -/
def MarketData.from_dict (d : List (String × PyVal)) : Option MarketData :=
  if (d.map Prod.fst).all (fun k => requiredFields.contains k) then
    match d.lookup "symbol", d.lookup "price", d.lookup "volume",
          d.lookup "bid", d.lookup "ask", d.lookup "timestamp",
          d.lookup "exchange" with
    | some s, some p, some v, some b, some a, some t, some e =>
        some ⟨s, p, v, b, a, t, e⟩
    | _, _, _, _, _, _, _ => none
  else none

/-- An inbound datagram as seen after `data.decode` / `json.loads`
(src/app.py lines 101-103): either the bytes are not well-formed JSON
(`json.loads` raises), or they parse to a non-object value, or they parse
to a JSON object. -/
inductive Payload where
  | malformed
  | nonObject (v : PyVal)
  | object (d : List (String × PyVal))
deriving DecidableEq, Repr

/-- The decode path of one datagram inside `_receive_data` (src/app.py
lines 101-103): `json.loads` followed by `MarketData.from_dict`; any raise
yields `none` (the surrounding `except` clauses drop the datagram). -/
def decode_update : Payload → Option MarketData
  | .malformed => none
  | .nonObject _ => none
  | .object d => MarketData.from_dict d

/-- One iteration's outcome of `self.socket.recvfrom(4096)` inside the
receive loop: a timeout, a received datagram, or a socket-level error
(`closed` marks the error raised on a closed socket). -/
inductive RecvEvent where
  | timeout
  | datagram (p : Payload)
  | sockError (closed : Bool)

/-- `queue.Queue.put` (src/app.py line 106): FIFO append at the tail. -/
def push (q : List MarketData) (m : MarketData) : List MarketData :=
  q ++ [m]

/-- `CryptoStreamClient._receive_data` (src/app.py lines 97-113), run over a
finite list of receive events while `is_running` holds: on timeout continue;
on a datagram, decode and enqueue on success, drop and continue on any
decode failure (`json.JSONDecodeError` or the `TypeError` from `from_dict`,
both caught); on any other exception (socket-level errors included), print
and continue the loop. -/
def receiveLoop : List RecvEvent → List MarketData → List MarketData
  | [], q => q
  | .timeout :: rest, q => receiveLoop rest q
  | .sockError _ :: rest, q => receiveLoop rest q
  | .datagram p :: rest, q =>
      match decode_update p with
      | some m => receiveLoop rest (push q m)
      | none => receiveLoop rest q

/-- Modelled from the spec: the Receive Loop of spec §4.4, which on a
socket-level error continues only when the error does not indicate a closed
socket, and otherwise transitions to `Stopped` (exits). Used solely to
compare the spec's loop with the implemented one. -/
def receiveLoopOfSpec : List RecvEvent → List MarketData → List MarketData
  | [], q => q
  | .timeout :: rest, q => receiveLoopOfSpec rest q
  | .sockError closed :: rest, q =>
      if closed then q else receiveLoopOfSpec rest q
  | .datagram p :: rest, q =>
      match decode_update p with
      | some m => receiveLoopOfSpec rest (push q m)
      | none => receiveLoopOfSpec rest q

/-- The drain loop of `get_latest_data` (src/app.py lines 143-151):
`get_nowait` until `queue.Empty`, appending each record to `data_list`.
Returns the drained records and the remaining queue contents. -/
def getLoop : List MarketData → List MarketData → List MarketData × List MarketData
  | [], acc => (acc, [])
  | x :: rest, acc => getLoop rest (acc ++ [x])

/-- `CryptoStreamClient.get_latest_data` (src/app.py lines 143-151). -/
def get_latest_data (q : List MarketData) : List MarketData × List MarketData :=
  getLoop q []

/-- Python `str.upper` on one character (basic-latin case mapping, as in
`Char.toUpper`). -/
def pyUpperChar (c : Char) : Char := c.toUpper

/-- Python `symbol.upper()` as used in `subscribe`/`unsubscribe`:
uppercases every character of the string. -/
def pyUpper (s : String) : String := ⟨s.data.map pyUpperChar⟩

/-- The `action` field of an outbound command (src/app.py lines 60-63,
80-83): `"start"` or `"stop"`. -/
inductive Action where
  | start
  | stop
deriving DecidableEq, Repr

/-- An outbound subscription command `{"action": ..., "symbol": ...}`. -/
structure Request where
  action : Action
  symbol : String
deriving DecidableEq, Repr

/-- The mutable state of a `CryptoStreamClient` (src/app.py lines 45-55):
the subscription list, the running flag, and whether the socket is open. -/
structure Client where
  subscribed_symbols : List String
  is_running : Bool
  socket_open : Bool
deriving DecidableEq, Repr

/-- The state of a freshly constructed client (src/app.py lines 45-55):
no subscriptions, not running, socket open. -/
def initClient : Client := ⟨[], false, true⟩

/-- `CryptoStreamClient.subscribe` (src/app.py lines 57-75). `sendOk` is the
outcome of the `socket.sendto` call: when it raises (`sendOk = false`) the
`except` clause returns `false` with the state untouched; when it succeeds
the uppercased symbol is appended unless already present and `true` is
returned. The third component records the attempted send (the encoded
request and whether the send succeeded). -/
def subscribe (sendOk : Bool) (c : Client) (symbol : String) :
    Client × Bool × List (Request × Bool) :=
  let sym := pyUpper symbol
  if sendOk then
    ({ c with subscribed_symbols :=
        if sym ∈ c.subscribed_symbols then c.subscribed_symbols
        else c.subscribed_symbols ++ [sym] },
     true, [(⟨Action.start, sym⟩, true)])
  else
    (c, false, [(⟨Action.start, sym⟩, false)])

/-- `CryptoStreamClient.unsubscribe` (src/app.py lines 77-95): mirror of
`subscribe` with a `stop` action; on a successful send the first occurrence
of the uppercased symbol is removed if present. -/
def unsubscribe (sendOk : Bool) (c : Client) (symbol : String) :
    Client × Bool × List (Request × Bool) :=
  let sym := pyUpper symbol
  if sendOk then
    ({ c with subscribed_symbols := c.subscribed_symbols.erase sym },
     true, [(⟨Action.stop, sym⟩, true)])
  else
    (c, false, [(⟨Action.stop, sym⟩, false)])

/-- `CryptoStreamClient.start` (src/app.py lines 115-122): no-op when
already running, otherwise sets the running flag (and launches the receive
thread, which the state machine tracks through `is_running`). -/
def startClient (c : Client) : Client :=
  if c.is_running then c else { c with is_running := true }

/-- The unsubscribe loop inside `stop` (src/app.py lines 131-133): iterates
over a snapshot (`self.subscribed_symbols.copy()`) of the subscription list
and calls `unsubscribe` on each symbol, accumulating the attempted sends.
`sendOk` gives the outcome of each symbol's `sendto`. -/
def stopLoop (sendOk : String → Bool) : List String → Client → Client × List (Request × Bool)
  | [], c => (c, [])
  | sym :: rest, c =>
      let r := unsubscribe (sendOk sym) c sym
      let r' := stopLoop sendOk rest r.1
      (r'.1, r.2.2 ++ r'.2)

/-- `CryptoStreamClient.stop` (src/app.py lines 124-136): returns at once
when not running; otherwise clears the running flag, then unsubscribes every
symbol in a snapshot of the subscription list (thread join not modelled:
it only blocks, it changes no client state). -/
def stopClient (sendOk : String → Bool) (c : Client) : Client × List (Request × Bool) :=
  if c.is_running then
    stopLoop sendOk c.subscribed_symbols { c with is_running := false }
  else
    (c, [])

/-- `CryptoStreamClient.close` (src/app.py lines 138-141): `stop()` then
`socket.close()`. -/
def closeClient (sendOk : String → Bool) (c : Client) : Client × List (Request × Bool) :=
  let r := stopClient sendOk c
  ({ r.1 with socket_open := false }, r.2)

/-- One public call on the client, with the transport outcome of each send
it performs. -/
inductive Op where
  | sub (sendOk : Bool) (sym : String)
  | unsub (sendOk : Bool) (sym : String)
  | start
  | stop (sendOk : String → Bool)
  | close (sendOk : String → Bool)

/-- The state transition of one public call. -/
def step (c : Client) : Op → Client
  | .sub ok s => (subscribe ok c s).1
  | .unsub ok s => (unsubscribe ok c s).1
  | .start => startClient c
  | .stop ok => (stopClient ok c).1
  | .close ok => (closeClient ok c).1

/-- The client state reached from a fresh client by a sequence of calls. -/
def runOps (ops : List Op) : Client :=
  ops.foldl step initClient


lemma toNat_ofNat_of_valid (m : Nat) (h : m.isValidChar) : (Char.ofNat m).toNat = m := by
  rw [Char.ofNat, dif_pos h]
  rfl

lemma pyUpperChar_idem (c : Char) : pyUpperChar (pyUpperChar c) = pyUpperChar c := by
  unfold pyUpperChar Char.toUpper
  by_cases h : c.toNat ≥ 97 ∧ c.toNat ≤ 122
  · rw [if_pos h]
    have hv : (c.toNat - 32).isValidChar := Or.inl (by omega)
    rw [if_neg]
    rw [toNat_ofNat_of_valid _ hv]
    omega
  · rw [if_neg h, if_neg h]

lemma pyUpper_idem (s : String) : pyUpper (pyUpper s) = pyUpper s := by
  unfold pyUpper
  simp only [List.map_map]
  congr 1
  exact List.map_congr_left (fun a _ => pyUpperChar_idem a)

lemma getLoop_eq (q : List MarketData) : ∀ acc, getLoop q acc = (acc ++ q, []) := by
  induction q with
  | nil => intro acc; simp [getLoop]
  | cons x rest ih => intro acc; simp [getLoop, ih]

lemma foldl_push (ms : List MarketData) : ∀ q, ms.foldl push q = q ++ ms := by
  induction ms with
  | nil => intro q; simp
  | cons m rest ih => intro q; simp [push, ih]

/-- C1: draining via `get_latest_data` returns exactly the records pushed
since the previous drain (which left the queue empty), in FIFO arrival
order, and leaves the queue empty; a second drain with no intervening push
returns the empty sequence, and a drain of the empty queue returns the
empty sequence. -/
theorem drain_all_fifo_exact (ms : List MarketData) :
    get_latest_data (ms.foldl push []) = (ms, []) ∧
    get_latest_data (get_latest_data (ms.foldl push [])).2 = ([], []) ∧
    get_latest_data ([] : List MarketData) = ([], []) := by
  simp [get_latest_data, getLoop_eq, foldl_push]

/-- A valid inbound datagram: every `MarketData` field present, well-typed
per the wire schema of spec §6. -/
def goodPayloadA : Payload :=
  .object [("symbol", .pstr "BTC"), ("price", .pint 50000),
           ("volume", .pnum 2), ("bid", .pint 49999), ("ask", .pint 50001),
           ("timestamp", .pint 1700000000000), ("exchange", .pstr "BINANCE")]

/-- The record `goodPayloadA` decodes to. -/
def goodDataA : MarketData :=
  ⟨.pstr "BTC", .pint 50000, .pnum 2, .pint 49999, .pint 50001,
   .pint 1700000000000, .pstr "BINANCE"⟩

/-- A second valid inbound datagram. -/
def goodPayloadB : Payload :=
  .object [("symbol", .pstr "ETH"), ("price", .pint 3000),
           ("volume", .pnum 5), ("bid", .pint 2999), ("ask", .pint 3001),
           ("timestamp", .pint 1700000000500), ("exchange", .pstr "BINANCE")]

/-- The record `goodPayloadB` decodes to. -/
def goodDataB : MarketData :=
  ⟨.pstr "ETH", .pint 3000, .pnum 5, .pint 2999, .pint 3001,
   .pint 1700000000500, .pstr "BINANCE"⟩

/-- C5: a malformed datagram between two valid datagrams is dropped without
terminating the receive loop: both valid records reach the queue, in order. -/
theorem receiveLoop_drops_malformed_keeps_valid (pA pG pB : Payload)
    (q : List MarketData) (mA mB : MarketData)
    (hA : decode_update pA = some mA) (hG : decode_update pG = none)
    (hB : decode_update pB = some mB) :
    receiveLoop [.datagram pA, .datagram pG, .datagram pB] q = q ++ [mA, mB] := by
  simp [receiveLoop, hA, hG, hB, push]

/-- C5 witness: concrete valid A, garbage, valid B. -/
theorem receiveLoop_drops_malformed_keeps_valid_witness :
    receiveLoop [.datagram goodPayloadA, .datagram .malformed, .datagram goodPayloadB] []
      = [goodDataA, goodDataB] :=
  receiveLoop_drops_malformed_keeps_valid goodPayloadA .malformed goodPayloadB []
    goodDataA goodDataB (by decide) (by decide) (by decide)

/-- C6: `subscribe` always returns a boolean (the `try`/`except` absorbs the
transport failure): `true` exactly when the `sendto` of the encoded `start`
command succeeded, `false` when it raised. -/
theorem subscribe_returns_send_outcome (sendOk : Bool) (c : Client) (s : String) :
    (subscribe sendOk c s).2.1 = sendOk ∧
    (subscribe sendOk c s).2.2 = [(⟨Action.start, pyUpper s⟩, sendOk)] := by
  cases sendOk <;> simp [subscribe]

/-- C7 (amended): the receive loop treats every socket-level error alike —
it prints and continues with the remaining events, whether or not the error
marks a closed socket; it never exits on an error. -/
theorem receiveLoop_survives_socket_errors (b : Bool) (rest : List RecvEvent)
    (q : List MarketData) :
    receiveLoop (.sockError b :: rest) q = receiveLoop rest q := rfl

/-- C7 counterexample: after a closed-socket error the spec's loop (§4.4)
has exited and processes nothing further, but the implemented loop continues
and still enqueues the next valid datagram. -/
theorem receiveLoop_closed_counterexample :
    receiveLoopOfSpec [.sockError true, .datagram goodPayloadA] [] = [] ∧
    receiveLoop [.sockError true, .datagram goodPayloadA] [] = [goodDataA] := by
  constructor
  · rfl
  · decide

/-- C9: on a client that is not running (in particular one on which
`start()` was never called), `stop()` is a no-op that sends nothing, and
`close()` sends nothing, changes no other state and releases the socket. -/
theorem close_before_start_safe (sendOk : String → Bool) (c : Client)
    (h : c.is_running = false) :
    stopClient sendOk c = (c, []) ∧
    closeClient sendOk c = ({ c with socket_open := false }, []) := by
  simp [stopClient, closeClient, h]

/-- C9 witness: the freshly constructed client. -/
theorem close_before_start_safe_witness :
    stopClient (fun _ => true) initClient = (initClient, []) ∧
    closeClient (fun _ => true) initClient = ({ initClient with socket_open := false }, []) :=
  close_before_start_safe (fun _ => true) initClient rfl

/-- C10: a failed send leaves the session state unchanged: `subscribe`
appends the symbol only after `sendto` succeeds, and `unsubscribe` removes
it only after `sendto` succeeds, so when the send raises the subscription
list (and all other state) is untouched. -/
theorem failed_send_leaves_state_unchanged (c : Client) (s : String) :
    (subscribe false c s).1 = c ∧ (unsubscribe false c s).1 = c := by
  simp [subscribe, unsubscribe]

/-- C3: `subscribe` is case-insensitive: it behaves identically on a symbol
and on its uppercased form, the sent `start` command carries the uppercased
symbol, and (on a successful send) the uppercased symbol ends up in the
subscription list exactly once and the list stays duplicate-free, so
repeated calls in any casing keep it there exactly once; a repeated call
leaves the state unchanged. -/
theorem subscribe_case_insensitive (c : Client) (s : String)
    (hnd : c.subscribed_symbols.Nodup) :
    (∀ ok, subscribe ok c s = subscribe ok c (pyUpper s)) ∧
    (subscribe true c s).2.2 = [(⟨Action.start, pyUpper s⟩, true)] ∧
    List.count (pyUpper s) (subscribe true c s).1.subscribed_symbols = 1 ∧
    (subscribe true c s).1.subscribed_symbols.Nodup ∧
    (subscribe true (subscribe true c s).1 (pyUpper s)).1 = (subscribe true c s).1 := by
  have hid := pyUpper_idem s
  refine ⟨fun ok => by cases ok <;> simp [subscribe, hid], by simp [subscribe], ?_, ?_, ?_⟩
  · by_cases hm : pyUpper s ∈ c.subscribed_symbols
    · simp only [subscribe, if_pos hm]
      simpa using List.count_eq_one_of_mem hnd hm
    · simp only [subscribe, if_neg hm]
      simp [List.count_append, List.count_eq_zero_of_not_mem hm]
  · by_cases hm : pyUpper s ∈ c.subscribed_symbols
    · simpa [subscribe, hm] using hnd
    · simp [subscribe, hm, List.nodup_append, hnd]
  · by_cases hm : pyUpper s ∈ c.subscribed_symbols
    · simp [subscribe, hm, hid]
    · simp [subscribe, hm, hid]

/-- C3 witness: subscribing `"btc"` on a fresh client equals subscribing
`"BTC"`, and `"BTC"` is present exactly once afterwards. -/
theorem subscribe_case_insensitive_witness :
    subscribe true initClient "btc" = subscribe true initClient "BTC" ∧
    List.count "BTC" (subscribe true initClient "btc").1.subscribed_symbols = 1 := by
  have h := subscribe_case_insensitive initClient "btc" List.nodup_nil
  have hu : pyUpper "btc" = "BTC" := by decide
  exact ⟨by rw [← hu]; exact h.1 true, by rw [← hu]; exact h.2.2.1⟩

/-- Modelled from the spec: the wire schema of spec §6 types each inbound
field (`symbol`, `exchange` strings; `price`, `volume`, `bid`, `ask`
numbers; `timestamp` an integer). -/
def specFieldWellTyped : String → PyVal → Bool
  | "symbol", .pstr _ => true
  | "price", .pint _ => true
  | "price", .pnum _ => true
  | "volume", .pint _ => true
  | "volume", .pnum _ => true
  | "bid", .pint _ => true
  | "bid", .pnum _ => true
  | "ask", .pint _ => true
  | "ask", .pnum _ => true
  | "timestamp", .pint _ => true
  | "exchange", .pstr _ => true
  | _, _ => false

/-- Modelled from the spec: decode "fails with a decode error exactly when
the payload is not well-formed JSON or a required field is missing or
mistyped" (spec §4.1). -/
def specDecodeFails : Payload → Bool
  | .malformed => true
  | .nonObject _ => true
  | .object d => requiredFields.any (fun k =>
      match d.lookup k with
      | none => true
      | some v => !specFieldWellTyped k v)

/-- All seven fields present but `symbol` carries a number: mistyped per the
wire schema, yet accepted by `cls(**data)`. -/
def mistypedPayload : Payload :=
  .object [("symbol", .pint 5), ("price", .pint 50000),
           ("volume", .pnum 2), ("bid", .pint 49999), ("ask", .pint 50001),
           ("timestamp", .pint 1700000000000), ("exchange", .pstr "BINANCE")]

/-- All seven fields present and well-typed plus one extra key: valid per
the claim's failure condition, yet rejected by `cls(**data)` with a
`TypeError` (unexpected keyword argument). -/
def extraKeyPayload : Payload :=
  .object [("symbol", .pstr "BTC"), ("price", .pint 50000),
           ("volume", .pnum 2), ("bid", .pint 49999), ("ask", .pint 50001),
           ("timestamp", .pint 1700000000000), ("exchange", .pstr "BINANCE"),
           ("note", .pstr "x")]

/-- C4 counterexample: decoding does not fail exactly under the claim's
condition. A payload with a mistyped required field (the claim says: fail)
decodes successfully, and a well-typed payload with one extra key (the
claim says: succeed) is rejected. -/
theorem decode_claim_counterexample :
    (specDecodeFails mistypedPayload = true ∧
     (decode_update mistypedPayload).isSome = true) ∧
    (specDecodeFails extraKeyPayload = false ∧
     decode_update extraKeyPayload = none) := by decide

/-- C4 (amended): decoding fails exactly when the payload is not well-formed
JSON, is not a JSON object, or its key set differs from the seven dataclass
fields (a required field missing or an unexpected key present); field values
are not type-checked. Decoding is all-or-nothing: a success yields a record
with all seven fields populated (by construction of `MarketData`). -/
theorem decode_fails_iff_keys_mismatch :
    decode_update .malformed = none ∧
    (∀ v, decode_update (.nonObject v) = none) ∧
    (∀ d, (decode_update (.object d)).isSome =
      ((d.map Prod.fst).all (fun k => requiredFields.contains k) &&
       requiredFields.all (fun k => (d.lookup k).isSome))) := by
  refine ⟨rfl, fun v => rfl, fun d => ?_⟩
  show (MarketData.from_dict d).isSome = _
  unfold MarketData.from_dict
  by_cases h : (d.map Prod.fst).all (fun k => requiredFields.contains k)
  · simp only [h, if_true, Bool.true_and]
    simp only [requiredFields, List.all_cons, List.all_nil]
    cases h1 : d.lookup "symbol" <;> cases h2 : d.lookup "price" <;>
      cases h3 : d.lookup "volume" <;> cases h4 : d.lookup "bid" <;>
      cases h5 : d.lookup "ask" <;> cases h6 : d.lookup "timestamp" <;>
      cases h7 : d.lookup "exchange" <;> simp
  · rw [Bool.not_eq_true] at h
    simp only [h]
    simp

lemma stopLoop_spec (sendOk : String → Bool) :
    ∀ (l kept : List String) (c : Client),
      c.subscribed_symbols = kept ++ l →
      (∀ s ∈ l, pyUpper s = s) →
      (kept ++ l).Nodup →
      (stopLoop sendOk l c).1.subscribed_symbols
          = kept ++ l.filter (fun s => !sendOk s) ∧
      (stopLoop sendOk l c).2 = l.map (fun s => (⟨Action.stop, s⟩, sendOk s)) ∧
      (stopLoop sendOk l c).1.is_running = c.is_running ∧
      (stopLoop sendOk l c).1.socket_open = c.socket_open := by
  intro l
  induction l with
  | nil =>
      intro kept c hsub _ _
      simpa [stopLoop] using hsub
  | cons sym rest ih =>
      intro kept c hsub hnorm hnd
      have hsym : pyUpper sym = sym := hnorm sym (List.mem_cons_self sym rest)
      have hnotkept : sym ∉ kept := by
        rcases List.nodup_append.mp hnd with ⟨-, -, hdisj⟩
        exact fun hk => hdisj hk (List.mem_cons_self sym rest)
      have hnormrest : ∀ s ∈ rest, pyUpper s = s :=
        fun s hs => hnorm s (List.mem_cons_of_mem _ hs)
      cases hok : sendOk sym with
      | true =>
          have herase : c.subscribed_symbols.erase sym = kept ++ rest := by
            rw [hsub, List.erase_append_right _ hnotkept, List.erase_cons_head]
          have hnd' : (kept ++ rest).Nodup :=
            List.Nodup.sublist ((List.sublist_cons_self sym rest).append_left kept) hnd
          have hr := ih kept
            { c with subscribed_symbols := c.subscribed_symbols.erase sym }
            herase hnormrest hnd'
          simp only [stopLoop, hok, unsubscribe, hsym, if_true]
          refine ⟨?_, ?_, ?_, ?_⟩
          · rw [hr.1]
            simp [hok]
          · rw [hr.2.1]
            simp [hok]
          · exact hr.2.2.1
          · exact hr.2.2.2
      | false =>
          have hsub' : c.subscribed_symbols = (kept ++ [sym]) ++ rest := by
            rw [hsub, List.append_assoc]
            rfl
          have hnd' : ((kept ++ [sym]) ++ rest).Nodup := by
            rw [List.append_assoc]
            simpa using hnd
          have hr := ih (kept ++ [sym]) c hsub' hnormrest hnd'
          simp only [stopLoop, hok, unsubscribe, hsym, Bool.false_eq_true, if_false]
          refine ⟨?_, ?_, ?_, ?_⟩
          · rw [hr.1]
            simp [hok, List.append_assoc]
          · rw [hr.2.1]
            simp [hok]
          · exact hr.2.2.1
          · exact hr.2.2.2

/-- C2 (amended): on a running client whose subscription list is
duplicate-free and uppercased (as every reachable state is), `stop()`
attempts exactly one `stop`-command send per subscribed symbol, in order,
continuing through the remaining symbols when a send fails; afterwards the
running flag is cleared and `subscribed_symbols` holds exactly the symbols
whose send failed — in particular it is empty when every send succeeds.
On a client that is not running, `stop()` returns at once and sends
nothing. -/
theorem stop_unsubscribes_snapshot (sendOk : String → Bool) (c : Client)
    (hrun : c.is_running = true)
    (hnd : c.subscribed_symbols.Nodup)
    (hnorm : ∀ s ∈ c.subscribed_symbols, pyUpper s = s) :
    (stopClient sendOk c).2 =
      c.subscribed_symbols.map (fun s => (⟨Action.stop, s⟩, sendOk s)) ∧
    (stopClient sendOk c).1.subscribed_symbols =
      c.subscribed_symbols.filter (fun s => !sendOk s) ∧
    (stopClient sendOk c).1.is_running = false ∧
    ((∀ s ∈ c.subscribed_symbols, sendOk s = true) →
      (stopClient sendOk c).1.subscribed_symbols = []) := by
  have h := stopLoop_spec sendOk c.subscribed_symbols []
    { c with is_running := false } (by simp) hnorm (by simpa using hnd)
  have hstop : stopClient sendOk c =
      stopLoop sendOk c.subscribed_symbols { c with is_running := false } := by
    simp [stopClient, hrun]
  refine ⟨by rw [hstop]; exact h.2.1, by rw [hstop]; simpa using h.1, by rw [hstop]; exact h.2.2.1, ?_⟩
  · intro hall
    rw [hstop]
    have := h.1
    simp only [List.nil_append] at this
    rw [this]
    exact List.filter_eq_nil_iff.mpr (fun a ha => by simp [hall a ha])

/-- C2 witness: a running client subscribed to BTC and ETH with all sends
succeeding: one stop command per symbol, state empty afterwards. -/
theorem stop_unsubscribes_snapshot_witness :
    (stopClient (fun _ => true) ⟨["BTC", "ETH"], true, true⟩).2 =
      [(⟨Action.stop, "BTC"⟩, true), (⟨Action.stop, "ETH"⟩, true)] ∧
    (stopClient (fun _ => true) ⟨["BTC", "ETH"], true, true⟩).1.subscribed_symbols = [] := by
  have h := stop_unsubscribes_snapshot (fun _ => true) ⟨["BTC", "ETH"], true, true⟩
    rfl (by decide) (by decide)
  exact ⟨by rw [h.1]; rfl, h.2.2.2 (fun s _ => rfl)⟩

/-- C2 counterexample: the claim fails on the code in two ways. A running
client subscribed to BTC whose single send fails still holds BTC afterwards
(the claim promises an empty list even when a send fails); and a
non-running client subscribed to BTC sends no command at all on `stop()`
(the claim promises one command per symbol). -/
theorem stop_claim_counterexample :
    ((stopClient (fun _ => false) ⟨["BTC"], true, true⟩).1.subscribed_symbols = ["BTC"] ∧
     (stopClient (fun _ => false) ⟨["BTC"], true, true⟩).2 =
       [(⟨Action.stop, "BTC"⟩, false)]) ∧
    ((stopClient (fun _ => true) ⟨["BTC"], false, true⟩).2 = [] ∧
     (stopClient (fun _ => true) ⟨["BTC"], false, true⟩).1.subscribed_symbols = ["BTC"]) := by
  decide

lemma nodup_append_singleton {l : List String} {a : String}
    (h : l.Nodup) (ha : a ∉ l) : (l ++ [a]).Nodup := by
  simp [List.nodup_append, h, ha]

lemma subscribe_preserves_nodup (ok : Bool) (c : Client) (s : String)
    (h : c.subscribed_symbols.Nodup) :
    (subscribe ok c s).1.subscribed_symbols.Nodup := by
  cases ok
  · simpa [subscribe] using h
  · by_cases hm : pyUpper s ∈ c.subscribed_symbols
    · simpa [subscribe, hm] using h
    · simpa [subscribe, hm] using nodup_append_singleton h hm

lemma unsubscribe_preserves_nodup (ok : Bool) (c : Client) (s : String)
    (h : c.subscribed_symbols.Nodup) :
    (unsubscribe ok c s).1.subscribed_symbols.Nodup := by
  cases ok
  · simpa [unsubscribe] using h
  · simpa [unsubscribe] using List.Nodup.erase _ h

lemma stopLoop_preserves_nodup (sendOk : String → Bool) :
    ∀ (l : List String) (c : Client), c.subscribed_symbols.Nodup →
      (stopLoop sendOk l c).1.subscribed_symbols.Nodup := by
  intro l
  induction l with
  | nil => intro c h; simpa [stopLoop] using h
  | cons sym rest ih =>
      intro c h
      simp only [stopLoop]
      exact ih _ (unsubscribe_preserves_nodup _ c sym h)

lemma step_preserves_nodup (c : Client) (op : Op)
    (h : c.subscribed_symbols.Nodup) : (step c op).subscribed_symbols.Nodup := by
  cases op with
  | sub ok s => exact subscribe_preserves_nodup ok c s h
  | unsub ok s => exact unsubscribe_preserves_nodup ok c s h
  | start => by_cases hr : c.is_running <;> simpa [step, startClient, hr] using h
  | stop sendOk =>
      by_cases hr : c.is_running
      · simp only [step, stopClient, hr, if_true]
        exact stopLoop_preserves_nodup sendOk _ _ (by simpa using h)
      · simpa [step, stopClient, hr] using h
  | close sendOk =>
      by_cases hr : c.is_running
      · simp only [step, closeClient, stopClient, hr, if_true]
        exact stopLoop_preserves_nodup sendOk _ _ (by simpa using h)
      · simpa [step, closeClient, stopClient, hr] using h

lemma foldl_step_nodup : ∀ (ops : List Op) (c : Client),
    c.subscribed_symbols.Nodup → (ops.foldl step c).subscribed_symbols.Nodup := by
  intro ops
  induction ops with
  | nil => intro c h; simpa using h
  | cons op rest ih => intro c h; exact ih _ (step_preserves_nodup c op h)

/-- C8: every reachable client state — any sequence of `subscribe`,
`unsubscribe`, `start`, `stop`, `close` calls from a fresh client, with any
pattern of transport outcomes — has a duplicate-free subscription list. -/
theorem runOps_no_duplicate_symbols (ops : List Op) :
    (runOps ops).subscribed_symbols.Nodup :=
  foldl_step_nodup ops initClient List.nodup_nil

end FrontApp
